import Mathlib

/-!
Verification development for the calendar MCP server.

Shallow embedding of the interval slot engine
(src/src/calendar-monitor.ts, methods getFreeSlotsForDates and
getActualFreeSlots) and of the message pipeline controller
(src/src/gmail-monitor.ts, the draft of the class at lines 187 to 545
and, for one claim, the draft at lines 545 to 824).

Instants are modelled as minutes on an integer time line (UTC minutes).
The request timezone is a fixed UTC offset, so a calendar date together
with the offset determines one instant for local midnight; a date string
is therefore embedded as its raw string plus the result of parsing it:
some of the UTC minute of local midnight when Luxon DateTime.fromISO
yields a valid date, none when it yields an invalid one.
-/

namespace CalMcp

/-- A busy calendar event as consumed by the slot engine.  start and stop
are the UTC minutes of event start and end.  dayKey is the yyyy-MM-dd
day string that DateTime.fromISO(event.start.dateTime).toFormat
produces for the event start; getActualFreeSlots filters per-day events
by comparing it with the requested date string. -/
structure CalendarEvent where
  start : Int
  stop : Int
  dayKey : String
deriving DecidableEq, Repr

/-- A free slot produced by the engine: start and end instants in UTC
minutes.  In the source these are ISO strings in the request timezone;
with one fixed offset for the whole request, string comparison of the
ISO forms agrees with comparison of the instants. -/
structure FreeSlot where
  start : Int
  stop : Int
deriving DecidableEq, Repr

/-- One entry of the dates argument: the raw date string together with
the result of DateTime.fromISO(dateStr, zone): some base where base is
the UTC minute of local midnight of that date in the request timezone,
or none when the parse yields an invalid DateTime. -/
structure DateInput where
  str : String
  parsed : Option Int
deriving DecidableEq, Repr

/-- workingStartHour = 9 in both engine modes. -/
def workingStartHour : Int := 9

/-- workingEndHour = 18 in both engine modes. -/
def workingEndHour : Int := 18

/-- slotMinutes = 30 in both engine modes. -/
def slotMinutes : Int := 30

/-- The hard-coded 5 minute buffer added around busy intervals in
getFreeSlotsForDates (lines 127 and 128 of calendar-monitor.ts). -/
def bufferMinutes : Int := 5

/-- Order on slots used to model slots.sort (line 150): the source
compares ISO start strings with localeCompare, which for a single fixed
offset is comparison of the start instants. -/
def slotLE (a b : FreeSlot) : Prop := a.start ≤ b.start

instance : DecidableRel slotLE := fun a b => by
  unfold slotLE; infer_instance

instance : IsTotal FreeSlot slotLE := ⟨fun a b => Int.le_total a.start b.start⟩

instance : IsTrans FreeSlot slotLE := ⟨fun _ _ _ h h2 => Int.le_trans h h2⟩

/-- Order on calendar events used to model the per-day sort in
getActualFreeSlots (line 187): a.start.toMillis() - b.start.toMillis(). -/
def eventLE (a b : CalendarEvent) : Prop := a.start ≤ b.start

instance : DecidableRel eventLE := fun a b => by
  unfold eventLE; infer_instance

instance : IsTotal CalendarEvent eventLE := ⟨fun a b => Int.le_total a.start b.start⟩

instance : IsTrans CalendarEvent eventLE := ⟨fun _ _ _ h h2 => Int.le_trans h h2⟩

/-- The double loop of getFreeSlotsForDates (lines 111 and 112):
for hour from 9 below 18, for min in 0 and 30, the slot start instant
base + 60 * hour + min.  base is the UTC minute of local midnight, so
baseDate.set with hour and minute gives this instant. -/
def gridStarts (base : Int) : List Int :=
  (List.range 9).flatMap fun h =>
    [base + 60 * (9 + Int.ofNat h), base + 60 * (9 + Int.ofNat h) + 30]

/-- busyIntervals.some of the buffered half-open overlap test
(lines 122 to 138): slotStart < busyEnd + buffer and
slotEnd > busyStart - buffer. -/
def overlapsBusy (slotStart slotEnd : Int) (busy : List CalendarEvent) : Bool :=
  busy.any fun b =>
    decide (slotStart < b.stop + bufferMinutes) &&
    decide (slotEnd > b.start - bufferMinutes)

/-- getFreeSlotsForDates (calendar-monitor.ts lines 82 to 152) with the
calendar fetch factored out: the busy events are a parameter.  Invalid
dates are skipped with continue (lines 106 to 109); each grid slot is
kept when it overlaps no buffered busy interval (lines 122 to 145); the
result is sorted by start (line 150). -/
def getFreeSlotsForDates (busy : List CalendarEvent) (dates : List DateInput) :
    List FreeSlot :=
  List.insertionSort slotLE
    (dates.flatMap fun di =>
      match di.parsed with
      | none => []
      | some base =>
        (gridStarts base).filterMap fun s =>
          if overlapsBusy s (s + slotMinutes) busy then none
          else some ⟨s, s + slotMinutes⟩)

/-- The while loop at lines 196 to 208 of getActualFreeSlots: while
currentTime is before the busy event start and before dayEnd, emit the
slot when it ends at or before the busy event start, then advance by 30
minutes.  Returns the emitted slots and the final currentTime. -/
def emitBeforeBusy (cur busyStart dayEnd : Int) : List FreeSlot × Int :=
  if h : cur < busyStart ∧ cur < dayEnd then
    let rest := emitBeforeBusy (cur + 30) busyStart dayEnd
    if cur + 30 ≤ busyStart then (⟨cur, cur + 30⟩ :: rest.1, rest.2)
    else (rest.1, rest.2)
  else ([], cur)
termination_by (busyStart - cur).toNat
decreasing_by
  omega

/-- The trailing while loop at lines 215 to 224: emit remaining slots
until dayEnd, keeping a slot only when it ends at or before dayEnd. -/
def emitTail (cur dayEnd : Int) : List FreeSlot :=
  if h : cur < dayEnd then
    (if cur + 30 ≤ dayEnd then [(⟨cur, cur + 30⟩ : FreeSlot)] else []) ++
      emitTail (cur + 30) dayEnd
  else []
termination_by (dayEnd - cur).toNat
decreasing_by
  omega

/-- The for loop over the sorted per-day busy events (lines 194 to 212):
walk the gaps, then skip past each busy event with
currentTime = max(currentTime, busyEvent.end). -/
def gapLoop (cur dayEnd : Int) : List CalendarEvent → List FreeSlot × Int
  | [] => ([], cur)
  | b :: rest =>
    let w := emitBeforeBusy cur b.start dayEnd
    let r := gapLoop (max w.2 b.stop) dayEnd rest
    (w.1 ++ r.1, r.2)

/-- getActualFreeSlots (calendar-monitor.ts lines 158 to 229) with the
calendar fetch factored out.  For each date the per-day events are
those whose dayKey equals the raw date string (lines 178 to 182),
sorted by start (line 187); the day is walked from 9:00 to 18:00 local.
An invalid date yields an invalid Luxon DateTime whose comparisons are
all false, so such a date emits no slots.  No buffer is applied and no
final sort is performed. -/
def getActualFreeSlots (events : List CalendarEvent) (dates : List DateInput) :
    List FreeSlot :=
  dates.flatMap fun di =>
    match di.parsed with
    | none => []
    | some base =>
      let dayStart := base + 60 * workingStartHour
      let dayEnd := base + 60 * workingEndHour
      let dayBusy := List.insertionSort eventLE
        (events.filter fun e => e.dayKey == di.str)
      let w := gapLoop dayStart dayEnd dayBusy
      w.1 ++ emitTail w.2 dayEnd

/-!
Pipeline controller embedding: gmail-monitor.ts, draft at lines 187 to
545 (the class with the simplified Claude flow).  The controller state
that the claims concern is seenMessageIds, modelled as a list of message
id strings shared by pollUnreadMessages and checkForNewMessages.  All
external calls are recorded as events in a trace; their outcomes are
supplied by an environment.
-/

/-- One entry of suggested_meeting_times in the oracle context. -/
structure Suggestion where
  date : String
  timezone : Option String
deriving DecidableEq, Repr

/-- Environment for one poll: the unread message list and the outcome of
every external call.  classify models checkIfMessageMeetingRelated at
line 412 as the truthiness of its result, with error standing for a
thrown failure such as unparseable oracle output; context models
getMeetingRequestContext at line 439, again with error for a thrown
JSON parse failure; hasFrom tells whether the From header yields a
non-empty reply address (lines 450 to 459); sendOk is the outcome of
gmail.users.messages.send inside composeAndSendEmail (line 329), whose
failure is caught at line 337 and never escapes; today is the string
new Date().toISOString().slice(0, 10) from line 408. -/
structure Env where
  unread : List String
  classify : String → Except Unit Bool
  context : String → Except Unit (List Suggestion)
  hasFrom : String → Bool
  sendOk : String → Bool
  today : String

/-- Observable events of one poll, in program order. -/
inductive Ev where
  | claim (id : String)
  | fetch (id : String)
  | classify (id : String)
  | getSlots (id : String) (dates : List String)
  | getContext (id : String)
  | sendAttempt (id : String) (ok : Bool)
  | markRead (id : String)
deriving DecidableEq, Repr

/-- The message id an event concerns. -/
def Ev.msgId : Ev → String
  | .claim i => i
  | .fetch i => i
  | .classify i => i
  | .getSlots i _ => i
  | .getContext i => i
  | .sendAttempt i _ => i
  | .markRead i => i

/-- The per-message body of pollUnreadMessages (lines 405 to 509) for an
already claimed and fetched message.  A thrown classification is caught
at line 506 and the loop continues with no further call for this
message; a non-meeting message is marked read at lines 416 to 427; a
meeting message queries the calendar with dates = [today] (line 435),
asks for the structured context (line 439, a thrown parse failure again
reaching the catch at line 506), sends the reply when a sender address
exists (line 480, send failures caught inside composeAndSendEmail), and
is marked read at lines 494 to 505 regardless of the send outcome. -/
def processMsg (env : Env) (id : String) : List Ev :=
  Ev.classify id ::
    match env.classify id with
    | .error _ => []
    | .ok false => [Ev.markRead id]
    | .ok true =>
      Ev.getSlots id [env.today] ::
        Ev.getContext id ::
          match env.context id with
          | .error _ => []
          | .ok _ =>
            (if env.hasFrom id then [Ev.sendAttempt id (env.sendOk id)] else [])
              ++ [Ev.markRead id]

/-- The message loop of pollUnreadMessages (lines 399 to 510): skip ids
already in seenMessageIds (line 400), otherwise add the id to the set
(line 401, the claim), fetch the full message (line 402) and process
it.  Returns the final seen set and the event trace. -/
def pollGo (env : Env) (seen : List String) : List String → List String × List Ev
  | [] => (seen, [])
  | id :: rest =>
    if id ∈ seen then pollGo env seen rest
    else
      ((pollGo env (id :: seen) rest).1,
        Ev.claim id :: Ev.fetch id ::
          (processMsg env id ++ (pollGo env (id :: seen) rest).2))

/-- pollUnreadMessages (lines 387 to 514) on the listed unread ids. -/
def pollUnreadMessages (env : Env) (seen : List String) :
    List String × List Ev :=
  pollGo env seen env.unread

/-- checkForNewMessages (lines 520 to 544): the same seen-set dedup and
fetch, collecting the fetched messages, with no classification, no
calendar call, no reply and no label change.  Returns the final seen
set, the returned ids and the trace. -/
def checkGo (seen : List String) : List String → List String × List String × List Ev
  | [] => (seen, [], [])
  | id :: rest =>
    if id ∈ seen then checkGo seen rest
    else
      ((checkGo (id :: seen) rest).1, id :: (checkGo (id :: seen) rest).2.1,
        Ev.claim id :: Ev.fetch id :: (checkGo (id :: seen) rest).2.2)

/-- checkForNewMessages applied to the listed unread ids. -/
def checkForNewMessages (env : Env) (seen : List String) :
    List String × List String × List Ev :=
  checkGo seen env.unread

/-!
The third draft of the class (gmail-monitor.ts lines 545 to 824) is the
one exercised by tests/gmail-monitor.test.ts: its pollUnreadMessages
passes every suggested date to getFreeSlotsForDates (lines 729 and
738).  Only its date selection is needed by the claims.
-/

/-- Environment for the third draft: meetingInfo models
checkIfMessageMeetingRelated returning a MeetingInfo whose
suggested_meeting_times list is kept (lines 719 to 725, with error for
a thrown call); calInit is the boolean result of
calendarMonitor.initialize() at line 736. -/
structure EnvThird where
  unread : List String
  meetingInfo : String → Except Unit (List Suggestion)
  calInit : Bool
  hasFrom : String → Bool
  sendOk : String → Bool

/-- Per-message body of the third draft (lines 716 to 782): on a thrown
classification continue (lines 722 to 725); when suggested meeting
times exist and the calendar initializes, query
getFreeSlotsForDates with all suggested dates (lines 729 and 738) and
reply when a sender address exists.  No label is ever modified. -/
def processMsgThird (env : EnvThird) (id : String) : List Ev :=
  Ev.classify id ::
    match env.meetingInfo id with
    | .error _ => []
    | .ok suggs =>
      if suggs.length > 0 then
        if env.calInit then
          Ev.getSlots id (suggs.map (·.date)) ::
            (if env.hasFrom id then [Ev.sendAttempt id (env.sendOk id)] else [])
        else []
      else []

/-- The message loop of the third draft pollUnreadMessages (lines 710 to
783), with the same seen-set claim discipline. -/
def pollGoThird (env : EnvThird) (seen : List String) :
    List String → List String × List Ev
  | [] => (seen, [])
  | id :: rest =>
    if id ∈ seen then pollGoThird env seen rest
    else
      ((pollGoThird env (id :: seen) rest).1,
        Ev.claim id :: Ev.fetch id ::
          (processMsgThird env id ++ (pollGoThird env (id :: seen) rest).2))

/-- pollUnreadMessages of the third draft on the listed unread ids. -/
def pollUnreadMessagesThird (env : EnvThird) (seen : List String) :
    List String × List Ev :=
  pollGoThird env seen env.unread

/-- Specification scaffolding: the n consecutive 30-minute slots
starting at cur. -/
def gridList (cur : Int) : Nat → List FreeSlot
  | 0 => []
  | n + 1 => ⟨cur, cur + 30⟩ :: gridList (cur + 30) n

/-- Concrete environment for the date-selection scenario: the oracle
classifies the one unread message as meeting-related and its structured
context suggests two candidate dates, as in the scenario of the spec
and in the expectation of tests/gmail-monitor.test.ts. -/
def envTwoDates : Env :=
  { unread := ["m1"]
    classify := fun _ => .ok true
    context := fun _ => .ok [⟨"2025-07-23", some "+08:00"⟩, ⟨"2025-07-22", some "+08:00"⟩]
    hasFrom := fun _ => true
    sendOk := fun _ => true
    today := "2025-07-21" }

/-- The same two-candidate-dates scenario against the third draft. -/
def envTwoDatesThird : EnvThird :=
  { unread := ["m1"]
    meetingInfo := fun _ => .ok [⟨"2025-07-23", some "+08:00"⟩, ⟨"2025-07-22", some "+08:00"⟩]
    calInit := true
    hasFrom := fun _ => true
    sendOk := fun _ => true }

/-- Concrete environment in which the oracle returns unparseable output
for the only unread message: both oracle calls throw. -/
def envGarbled : Env :=
  { unread := ["m1"]
    classify := fun _ => .error ()
    context := fun _ => .error ()
    hasFrom := fun _ => true
    sendOk := fun _ => true
    today := "2025-07-21" }

/-- Concrete environment where the reply transmission fails for the one
meeting-related unread message. -/
def envSendFail : Env :=
  { unread := ["m1"]
    classify := fun _ => .ok true
    context := fun _ => .ok [⟨"2025-07-23", some "+08:00"⟩]
    hasFrom := fun _ => true
    sendOk := fun _ => false
    today := "2025-07-21" }

/-- A second-poll environment listing one fresh id, used to exercise
traces of a later poll. -/
def envOther : Env :=
  { unread := ["m2"]
    classify := fun _ => .ok false
    context := fun _ => .error ()
    hasFrom := fun _ => false
    sendOk := fun _ => false
    today := "2025-07-21" }

/-!
Helper lemmas about the slot engine.
-/

theorem emitTail_closed : ∀ (n : Nat) (cur dayEnd : Int), dayEnd = cur + 30 * n →
    emitTail cur dayEnd = gridList cur n
  | 0, cur, dayEnd, h => by
    rw [emitTail, dif_neg (by omega)]
    rfl
  | n + 1, cur, dayEnd, h => by
    rw [emitTail, dif_pos (by push_cast at h; omega), if_pos (by push_cast at h; omega),
      emitTail_closed n (cur + 30) dayEnd (by push_cast at h ⊢; omega)]
    rfl

theorem emitBeforeBusy_closed : ∀ (n : Nat) (cur busyStart dayEnd : Int),
    busyStart = cur + 30 * n → busyStart ≤ dayEnd →
    emitBeforeBusy cur busyStart dayEnd = (gridList cur n, busyStart)
  | 0, cur, busyStart, dayEnd, h, _ => by
    rw [emitBeforeBusy, dif_neg (by omega)]
    simp [gridList]
    omega
  | n + 1, cur, busyStart, dayEnd, h, hle => by
    rw [emitBeforeBusy, dif_pos (by constructor <;> (push_cast at h; omega))]
    rw [emitBeforeBusy_closed n (cur + 30) busyStart dayEnd (by push_cast at h ⊢; omega) hle]
    rw [if_pos (by push_cast at h; omega)]
    rfl

theorem mem_gridList (s : FreeSlot) : ∀ (n : Nat) (cur : Int),
    s ∈ gridList cur n ↔ ∃ k : Nat, k < n ∧ s = ⟨cur + 30 * k, cur + 30 * k + 30⟩
  | 0, cur => by simp [gridList]
  | n + 1, cur => by
    rw [gridList, List.mem_cons, mem_gridList s n (cur + 30)]
    constructor
    · rintro (rfl | ⟨k, hk, rfl⟩)
      · exact ⟨0, by omega, by norm_num⟩
      · refine ⟨k + 1, by omega, ?_⟩
        congr 1 <;> (push_cast; ring)
    · rintro ⟨k, hk, rfl⟩
      match k with
      | 0 => exact Or.inl (by norm_num)
      | k + 1 =>
        refine Or.inr ⟨k, by omega, ?_⟩
        congr 1 <;> (push_cast; ring)

theorem gridStarts_eq (base : Int) :
    gridStarts base = (List.range 18).map fun k : Nat => base + 540 + 30 * (k : Int) := by
  simp [gridStarts, List.range_succ]
  omega

theorem mem_gridStarts (base x : Int) :
    x ∈ gridStarts base ↔ ∃ k : Nat, k < 18 ∧ x = base + 540 + 30 * k := by
  rw [gridStarts_eq, List.mem_map]
  constructor
  · rintro ⟨k, hk, rfl⟩
    exact ⟨k, List.mem_range.mp hk, rfl⟩
  · rintro ⟨k, hk, rfl⟩
    exact ⟨k, List.mem_range.mpr hk, rfl⟩

/-- Membership characterization of the fixed-grid mode: a slot is in the
output exactly when some requested date parses, the slot lies on the
30-minute grid of the 9 to 18 working window of that date, and the
buffered overlap test accepts it. -/
theorem mem_getFreeSlotsForDates (busy : List CalendarEvent) (dates : List DateInput)
    (s : FreeSlot) :
    s ∈ getFreeSlotsForDates busy dates ↔
      ∃ di ∈ dates, ∃ base, di.parsed = some base ∧
        ∃ k : Nat, k < 18 ∧ s.start = base + 540 + 30 * k ∧ s.stop = s.start + 30 ∧
          overlapsBusy s.start (s.start + 30) busy = false := by
  unfold getFreeSlotsForDates
  rw [(List.perm_insertionSort slotLE _).mem_iff, List.mem_flatMap]
  constructor
  · rintro ⟨di, hdi, hs⟩
    match hp : di.parsed with
    | none => rw [hp] at hs; simp at hs
    | some base =>
      rw [hp] at hs
      rw [List.mem_filterMap] at hs
      obtain ⟨a, ha, hfa⟩ := hs
      obtain ⟨k, hk, rfl⟩ := (mem_gridStarts base a).mp ha
      by_cases hov : overlapsBusy (base + 540 + 30 * (k : Int))
          (base + 540 + 30 * (k : Int) + slotMinutes) busy
      · rw [if_pos hov] at hfa; cases hfa
      · rw [if_neg hov] at hfa
        cases hfa
        refine ⟨di, hdi, base, hp, k, hk, rfl, by simp [slotMinutes], ?_⟩
        simpa [slotMinutes] using Bool.eq_false_iff.mpr hov
  · rintro ⟨di, hdi, base, hp, k, hk, hstart, hstop, hov⟩
    refine ⟨di, hdi, ?_⟩
    rw [hp]
    rw [List.mem_filterMap]
    refine ⟨s.start, (mem_gridStarts base s.start).mpr ⟨k, hk, hstart⟩, ?_⟩
    rw [if_neg (by simp [slotMinutes, hov])]
    have hse : s = ⟨s.start, s.start + 30⟩ := by
      cases s
      simp_all
    rw [hse]
    simp [slotMinutes]

theorem getActualFreeSlots_nil (dates : List DateInput) :
    getActualFreeSlots [] dates =
      dates.flatMap fun di =>
        match di.parsed with
        | none => []
        | some base => gridList (base + 540) 18 := by
  unfold getActualFreeSlots
  congr 1
  funext di
  match hp : di.parsed with
  | none => rfl
  | some base =>
    simp only [List.filter_nil]
    show ((gapLoop (base + 60 * workingStartHour) (base + 60 * workingEndHour) []).1 ++
        emitTail (gapLoop (base + 60 * workingStartHour) (base + 60 * workingEndHour) []).2
          (base + 60 * workingEndHour)) = gridList (base + 540) 18
    rw [gapLoop]
    rw [emitTail_closed 18 (base + 60 * workingStartHour) (base + 60 * workingEndHour)
      (by simp only [workingStartHour, workingEndHour]; push_cast; ring)]
    norm_num [workingStartHour]

theorem getActualFreeSlots_single (events : List CalendarEvent) (di : DateInput) (base : Int)
    (hp : di.parsed = some base) :
    getActualFreeSlots events [di] =
      (gapLoop (base + 540) (base + 1080)
        (List.insertionSort eventLE (events.filter fun e => e.dayKey == di.str))).1 ++
      emitTail (gapLoop (base + 540) (base + 1080)
        (List.insertionSort eventLE (events.filter fun e => e.dayKey == di.str))).2
        (base + 1080) := by
  unfold getActualFreeSlots
  simp only [List.flatMap_cons, List.flatMap_nil, List.append_nil, hp]
  norm_num [workingStartHour, workingEndHour]

/-- The concrete run behind the first claim: one busy event from 14:00
to 14:30 on a date whose local midnight is instant 0, so the working
window is 540 to 1080.  The gap walker emits the ten grid slots up to
13:30 and resumes at 14:30. -/
theorem getActual_concrete :
    getActualFreeSlots [⟨840, 870, "2025-07-25"⟩] [⟨"2025-07-25", some 0⟩] =
      gridList 540 10 ++ gridList 870 7 := by
  rw [getActualFreeSlots_single _ _ 0 rfl]
  have hfil : List.filter (fun e => e.dayKey == "2025-07-25")
      [(⟨840, 870, "2025-07-25"⟩ : CalendarEvent)] = [⟨840, 870, "2025-07-25"⟩] := by decide
  rw [hfil]
  rw [show List.insertionSort eventLE [(⟨840, 870, "2025-07-25"⟩ : CalendarEvent)] =
    [⟨840, 870, "2025-07-25"⟩] from rfl]
  norm_num
  rw [gapLoop, emitBeforeBusy_closed 10 540 840 1080 (by norm_num) (by norm_num), gapLoop]
  norm_num
  rw [emitTail_closed 7 870 1080 (by norm_num)]

/-!
Claim theorems for the slot engine.
-/

/-- C1 counterexample: with one busy event from 14:00 to 14:30 the two
modes disagree: the gap-based mode emits the 13:30 slot that the
fixed-grid mode excludes for buffer reasons, because the gap walker
applies no buffer at all. -/
theorem claim_c1_counterexample :
    ((⟨810, 840⟩ : FreeSlot) ∈
        getActualFreeSlots [⟨840, 870, "2025-07-25"⟩] [⟨"2025-07-25", some 0⟩]) ∧
    ((⟨810, 840⟩ : FreeSlot) ∉
        getFreeSlotsForDates [⟨840, 870, "2025-07-25"⟩] [⟨"2025-07-25", some 0⟩]) := by
  refine ⟨?_, by decide⟩
  rw [getActual_concrete]
  decide

/-- C1 amended: the two modes agree, as sets of slots, whenever the busy
list is empty; the general equivalence claimed for all well-formed
inputs fails because the gap-based mode applies no buffer (see the
counterexample). -/
theorem claim_c1_agreement_on_empty_busy (dates : List DateInput) (s : FreeSlot) :
    s ∈ getFreeSlotsForDates [] dates ↔ s ∈ getActualFreeSlots [] dates := by
  rw [mem_getFreeSlotsForDates, getActualFreeSlots_nil, List.mem_flatMap]
  constructor
  · rintro ⟨di, hdi, base, hp, k, hk, hstart, hstop, -⟩
    refine ⟨di, hdi, ?_⟩
    rw [hp, mem_gridList]
    refine ⟨k, hk, ?_⟩
    cases s
    simp only [FreeSlot.mk.injEq] at hstart hstop ⊢
    constructor <;> omega
  · rintro ⟨di, hdi, hmem⟩
    match hp : di.parsed with
    | none => rw [hp] at hmem; simp at hmem
    | some base =>
      rw [hp, mem_gridList] at hmem
      obtain ⟨k, hk, rfl⟩ := hmem
      exact ⟨di, hdi, base, hp, k, hk, rfl, rfl, rfl⟩

theorem overlapsBusy_eq_false_iff (a b : Int) (busy : List CalendarEvent) :
    overlapsBusy a b busy = false ↔
      ∀ e ∈ busy, ¬(a < e.stop + bufferMinutes ∧ b > e.start - bufferMinutes) := by
  unfold overlapsBusy
  rw [List.any_eq_false]
  constructor
  · intro h e he hcon
    have := h e he
    simp only [Bool.and_eq_true, decide_eq_true_eq] at this
    exact this ⟨hcon.1, hcon.2⟩
  · intro h e he
    have := h e he
    simp only [Bool.and_eq_true, decide_eq_true_eq]
    exact fun hc => this hc

/-- C2: a grid slot of a valid date is in the fixed-grid output exactly
when it overlaps no busy interval expanded by bufferMinutes on both ends
under the half-open test; consequently, against a single busy interval,
a slot whose gap to the interval is below bufferMinutes is excluded and
a slot whose gap equals bufferMinutes is included, on either side. -/
theorem claim_c2_buffered_overlap_exclusion (busy : List CalendarEvent) (di : DateInput)
    (base : Int) (hp : di.parsed = some base) (s : FreeSlot) (k : Nat) (hk : k < 18)
    (hstart : s.start = base + 540 + 30 * k) (hstop : s.stop = s.start + 30) :
    (s ∈ getFreeSlotsForDates busy [di] ↔
      ∀ e ∈ busy, ¬(s.start < e.stop + bufferMinutes ∧
        s.start + slotMinutes > e.start - bufferMinutes)) ∧
    (∀ b g, busy = [b] → b.start < b.stop → 0 ≤ g → s.start = b.stop + g →
      ((g < bufferMinutes → s ∉ getFreeSlotsForDates busy [di]) ∧
       (g = bufferMinutes → s ∈ getFreeSlotsForDates busy [di]))) ∧
    (∀ b g, busy = [b] → b.start < b.stop → 0 ≤ g → s.stop + g = b.start →
      ((g < bufferMinutes → s ∉ getFreeSlotsForDates busy [di]) ∧
       (g = bufferMinutes → s ∈ getFreeSlotsForDates busy [di]))) := by
  have hmem : s ∈ getFreeSlotsForDates busy [di] ↔
      ∀ e ∈ busy, ¬(s.start < e.stop + bufferMinutes ∧
        s.start + 30 > e.start - bufferMinutes) := by
    rw [mem_getFreeSlotsForDates]
    rw [show (∃ d2 ∈ [di], ∃ b2, d2.parsed = some b2 ∧
        ∃ k2 : Nat, k2 < 18 ∧ s.start = b2 + 540 + 30 * k2 ∧ s.stop = s.start + 30 ∧
          overlapsBusy s.start (s.start + 30) busy = false) ↔
        overlapsBusy s.start (s.start + 30) busy = false from
      ⟨fun ⟨_, _, _, _, _, _, _, _, h⟩ => h,
       fun h => ⟨di, List.mem_singleton.mpr rfl, base, hp, k, hk, hstart, hstop, h⟩⟩]
    exact overlapsBusy_eq_false_iff s.start (s.start + 30) busy
  refine ⟨by rw [hmem]; simp [slotMinutes], ?_, ?_⟩
  · rintro b g rfl hb hg0 hgap
    constructor
    · intro hglt hin
      have := (hmem.mp hin) b (List.mem_singleton.mpr rfl)
      simp only [bufferMinutes] at hglt this
      omega
    · intro hgeq
      rw [hmem]
      rintro e he
      rw [List.mem_singleton] at he
      subst he
      simp only [bufferMinutes] at hgeq ⊢
      omega
  · rintro b g rfl hb hg0 hgap
    constructor
    · intro hglt hin
      have := (hmem.mp hin) b (List.mem_singleton.mpr rfl)
      simp only [bufferMinutes] at hglt this
      omega
    · intro hgeq
      rw [hmem]
      rintro e he
      rw [List.mem_singleton] at he
      subst he
      simp only [bufferMinutes] at hgeq ⊢
      omega

/-- C2 witness: with one busy interval ending at 865 and a grid slot
starting at 870, the gap equals the 5 minute buffer and the slot is
included. -/
theorem claim_c2_witness :
    (⟨870, 900⟩ : FreeSlot) ∈ getFreeSlotsForDates [⟨840, 865, "d"⟩] [⟨"d", some 0⟩] :=
  ((claim_c2_buffered_overlap_exclusion [⟨840, 865, "d"⟩] ⟨"d", some 0⟩ 0 rfl
      ⟨870, 900⟩ 11 (by norm_num) (by norm_num) (by norm_num)).2.1
    ⟨840, 865, "d"⟩ 5 rfl (by norm_num) (by norm_num) (by norm_num)).2 rfl

/-- C3: with an empty busy list the fixed-grid mode returns exactly 18
slots for each date that parses, which is floor of (18 - 9) * 60 / 30,
and every returned slot lies inside the working window of one of the
requested dates. -/
theorem claim_c3_full_grid_on_empty_busy (dates : List DateInput) :
    (getFreeSlotsForDates [] dates).length =
      18 * dates.countP (fun di => di.parsed.isSome) ∧
    ∀ s ∈ getFreeSlotsForDates [] dates, ∃ di ∈ dates, ∃ base, di.parsed = some base ∧
      base + 540 ≤ s.start ∧ s.stop ≤ base + 1080 := by
  constructor
  · unfold getFreeSlotsForDates
    rw [(List.perm_insertionSort slotLE _).length_eq]
    induction dates with
    | nil => rfl
    | cons d ds ih =>
      rw [List.flatMap_cons, List.length_append, ih, List.countP_cons]
      match hp : d.parsed with
      | none => simp [hp]
      | some base =>
        simp only [hp, Option.isSome_some]
        have hif : (fun s : Int =>
            if overlapsBusy s (s + slotMinutes) [] then none
            else some (⟨s, s + slotMinutes⟩ : FreeSlot)) =
            fun s : Int => some (⟨s, s + slotMinutes⟩ : FreeSlot) := by
          funext s
          simp [overlapsBusy]
        rw [hif]
        rw [show (List.filterMap (fun s : Int => some (⟨s, s + slotMinutes⟩ : FreeSlot))
            (gridStarts base)) =
          (gridStarts base).map (fun s : Int => (⟨s, s + slotMinutes⟩ : FreeSlot)) from
          List.filterMap_eq_map _ ▸ rfl]
        rw [List.length_map, gridStarts_eq, List.length_map, List.length_range]
        rw [if_pos trivial]
        ring
  · intro s hs
    obtain ⟨di, hdi, base, hp, k, hk, hstart, hstop, -⟩ :=
      (mem_getFreeSlotsForDates _ _ _).mp hs
    exact ⟨di, hdi, base, hp, by omega, by omega⟩

theorem overlapsBusy_perm (a b : Int) {l l2 : List CalendarEvent} (h : l.Perm l2) :
    overlapsBusy a b l = overlapsBusy a b l2 := by
  unfold overlapsBusy
  rw [Bool.eq_iff_iff]
  simp only [List.any_eq_true]
  exact ⟨fun ⟨e, he, hp⟩ => ⟨e, h.mem_iff.mp he, hp⟩,
    fun ⟨e, he, hp⟩ => ⟨e, h.mem_iff.mpr he, hp⟩⟩

/-- C8: permuting the busy list leaves the fixed-grid output unchanged,
and the output is sorted ascending by slot start. -/
theorem claim_c8_busy_order_independent (busy busy2 : List CalendarEvent)
    (dates : List DateInput) (hperm : busy.Perm busy2) :
    getFreeSlotsForDates busy dates = getFreeSlotsForDates busy2 dates ∧
    List.Sorted slotLE (getFreeSlotsForDates busy dates) := by
  constructor
  · unfold getFreeSlotsForDates
    congr 1
    apply List.flatMap_congr
    intro di hdi
    match hp : di.parsed with
    | none => rfl
    | some base =>
      show List.filterMap (fun s =>
          if overlapsBusy s (s + slotMinutes) busy then none
          else some (⟨s, s + slotMinutes⟩ : FreeSlot)) (gridStarts base) =
        List.filterMap (fun s =>
          if overlapsBusy s (s + slotMinutes) busy2 then none
          else some (⟨s, s + slotMinutes⟩ : FreeSlot)) (gridStarts base)
      congr 1
      funext s
      rw [overlapsBusy_perm s (s + slotMinutes) hperm]
  · unfold getFreeSlotsForDates
    exact List.sorted_insertionSort slotLE _

/-- C8 witness: swapping two busy events leaves the output unchanged and
the output is sorted. -/
theorem claim_c8_witness :
    getFreeSlotsForDates [⟨600, 660, "d"⟩, ⟨900, 960, "d"⟩] [⟨"d", some 0⟩] =
      getFreeSlotsForDates [⟨900, 960, "d"⟩, ⟨600, 660, "d"⟩] [⟨"d", some 0⟩] ∧
    List.Sorted slotLE
      (getFreeSlotsForDates [⟨600, 660, "d"⟩, ⟨900, 960, "d"⟩] [⟨"d", some 0⟩]) :=
  claim_c8_busy_order_independent _ _ [⟨"d", some 0⟩] (List.Perm.swap _ _ _)

/-- C9: a date entry that fails to parse contributes no slots and does
not disturb the slots of the other dates, in both engine modes: the
output on a dates list containing the malformed entry equals the output
on the list with that entry removed. -/
theorem claim_c9_malformed_date_skipped (busy : List CalendarEvent)
    (xs ys : List DateInput) (bad : DateInput) (hbad : bad.parsed = none) :
    getFreeSlotsForDates busy (xs ++ bad :: ys) = getFreeSlotsForDates busy (xs ++ ys) ∧
    getActualFreeSlots busy (xs ++ bad :: ys) = getActualFreeSlots busy (xs ++ ys) := by
  constructor
  · unfold getFreeSlotsForDates
    congr 1
    rw [List.flatMap_append, List.flatMap_append, List.flatMap_cons]
    rw [show (match bad.parsed with
      | none => ([] : List FreeSlot)
      | some base =>
        (gridStarts base).filterMap fun s =>
          if overlapsBusy s (s + slotMinutes) busy then none
          else some ⟨s, s + slotMinutes⟩) = [] by rw [hbad]]
    rw [List.nil_append]
  · unfold getActualFreeSlots
    rw [List.flatMap_append, List.flatMap_append, List.flatMap_cons]
    rw [show (match bad.parsed with
      | none => ([] : List FreeSlot)
      | some base =>
        (gapLoop (base + 60 * workingStartHour) (base + 60 * workingEndHour)
          (List.insertionSort eventLE (busy.filter fun e => e.dayKey == bad.str))).1 ++
        emitTail (gapLoop (base + 60 * workingStartHour) (base + 60 * workingEndHour)
          (List.insertionSort eventLE (busy.filter fun e => e.dayKey == bad.str))).2
          (base + 60 * workingEndHour)) = [] by rw [hbad]]
    rw [List.nil_append]

/-- C9 witness: a malformed middle entry between two valid dates changes
nothing in either mode. -/
theorem claim_c9_witness :
    getFreeSlotsForDates []
        ([⟨"2025-07-23", some 0⟩] ++ ⟨"bad", none⟩ :: [⟨"2025-07-24", some 1440⟩]) =
      getFreeSlotsForDates [] ([⟨"2025-07-23", some 0⟩] ++ [⟨"2025-07-24", some 1440⟩]) ∧
    getActualFreeSlots []
        ([⟨"2025-07-23", some 0⟩] ++ ⟨"bad", none⟩ :: [⟨"2025-07-24", some 1440⟩]) =
      getActualFreeSlots [] ([⟨"2025-07-23", some 0⟩] ++ [⟨"2025-07-24", some 1440⟩]) :=
  claim_c9_malformed_date_skipped [] [⟨"2025-07-23", some 0⟩]
    [⟨"2025-07-24", some 1440⟩] ⟨"bad", none⟩ rfl

/-!
Helper lemmas about the pipeline controller.
-/

theorem processMsg_msgId (env : Env) (id : String) :
    ∀ e ∈ processMsg env id, e.msgId = id := by
  intro e he
  unfold processMsg at he
  rw [List.mem_cons] at he
  rcases he with rfl | he
  · rfl
  match hc : env.classify id with
  | .error u => rw [hc] at he; simp at he
  | .ok false =>
    rw [hc] at he
    rw [List.mem_singleton] at he
    subst he
    rfl
  | .ok true =>
    rw [hc] at he
    rw [List.mem_cons] at he
    rcases he with rfl | he
    · rfl
    rw [List.mem_cons] at he
    rcases he with rfl | he
    · rfl
    match hcx : env.context id with
    | .error u => rw [hcx] at he; simp at he
    | .ok ctx =>
      rw [hcx] at he
      rw [List.mem_append] at he
      rcases he with he | he
      · by_cases hf : env.hasFrom id
        · rw [if_pos hf, List.mem_singleton] at he
          subst he
          rfl
        · rw [if_neg hf] at he
          simp at he
      · rw [List.mem_singleton] at he
        subst he
        rfl

theorem pollGo_fst_mono (env : Env) :
    ∀ (l seen : List String), seen ⊆ (pollGo env seen l).1
  | [], seen => by rw [pollGo]; exact fun x hx => hx
  | id :: rest, seen => by
    rw [pollGo]
    by_cases h : id ∈ seen
    · rw [if_pos h]
      exact pollGo_fst_mono env rest seen
    · rw [if_neg h]
      intro x hx
      exact pollGo_fst_mono env rest (id :: seen) (List.mem_cons_of_mem _ hx)

theorem pollGo_fst_mem (env : Env) :
    ∀ (l seen : List String) (id : String), id ∈ l → id ∈ (pollGo env seen l).1
  | [], _, _, h => by simp at h
  | a :: rest, seen, id, h => by
    rw [pollGo]
    by_cases ha : a ∈ seen
    · rw [if_pos ha]
      rcases List.mem_cons.mp h with rfl | h2
      · exact pollGo_fst_mono env rest seen ha
      · exact pollGo_fst_mem env rest seen id h2
    · rw [if_neg ha]
      rcases List.mem_cons.mp h with rfl | h2
      · exact pollGo_fst_mono env rest (id :: seen) (List.mem_cons_self id seen)
      · exact pollGo_fst_mem env rest (a :: seen) id h2

theorem pollGo_skip (env : Env) :
    ∀ (l seen : List String), (∀ id ∈ l, id ∈ seen) → pollGo env seen l = (seen, [])
  | [], seen, _ => by rw [pollGo]
  | a :: rest, seen, h => by
    rw [pollGo, if_pos (h a (List.mem_cons_self a rest))]
    exact pollGo_skip env rest seen fun id hid => h id (List.mem_cons_of_mem a hid)

theorem pollGo_trace_id (env : Env) :
    ∀ (l seen : List String) (e : Ev), e ∈ (pollGo env seen l).2 →
      e.msgId ∈ l ∧ e.msgId ∉ seen
  | [], seen, e, he => by rw [pollGo] at he; simp at he
  | a :: rest, seen, e, he => by
    rw [pollGo] at he
    by_cases ha : a ∈ seen
    · rw [if_pos ha] at he
      obtain ⟨h1, h2⟩ := pollGo_trace_id env rest seen e he
      exact ⟨List.mem_cons_of_mem a h1, h2⟩
    · rw [if_neg ha] at he
      simp only [List.mem_cons, List.mem_append] at he
      rcases he with rfl | rfl | he | he
      · exact ⟨List.mem_cons_self a rest, ha⟩
      · exact ⟨List.mem_cons_self a rest, ha⟩
      · rw [processMsg_msgId env a e he]
        exact ⟨List.mem_cons_self a rest, ha⟩
      · obtain ⟨h1, h2⟩ := pollGo_trace_id env rest (a :: seen) e he
        refine ⟨List.mem_cons_of_mem a h1, fun hx => h2 (List.mem_cons_of_mem a hx)⟩

theorem pollGo_decomp (env : Env) :
    ∀ (l seen : List String) (id : String), id ∉ seen → id ∈ l →
      ∃ pre post, (pollGo env seen l).2 =
          pre ++ (Ev.claim id :: Ev.fetch id :: processMsg env id) ++ post ∧
        ∀ e ∈ pre, e.msgId ≠ id
  | [], _, id, _, hin => by simp at hin
  | a :: rest, seen, id, hns, hin => by
    rw [pollGo]
    by_cases ha : a ∈ seen
    · rw [if_pos ha]
      rcases List.mem_cons.mp hin with rfl | h2
      · exact absurd ha hns
      · exact pollGo_decomp env rest seen id hns h2
    · rw [if_neg ha]
      by_cases hia : id = a
      · subst hia
        exact ⟨[], (pollGo env (id :: seen) rest).2, by simp, by simp⟩
      · rcases List.mem_cons.mp hin with rfl | h2
        · exact absurd rfl hia
        · have hns2 : id ∉ a :: seen := by
            intro hx
            rcases List.mem_cons.mp hx with rfl | hx2
            · exact hia rfl
            · exact hns hx2
          obtain ⟨pre, post, heq, hpre⟩ := pollGo_decomp env rest (a :: seen) id hns2 h2
          refine ⟨Ev.claim a :: Ev.fetch a :: processMsg env a ++ pre, post, ?_, ?_⟩
          · simp only [heq]
            simp
          · intro e he
            simp only [List.cons_append, List.mem_cons, List.mem_append] at he
            rcases he with rfl | rfl | he | he
            · exact fun h => hia h.symm
            · exact fun h => hia h.symm
            · rw [processMsg_msgId env a e he]
              exact fun h => hia h.symm
            · exact hpre e he

theorem count_markRead_processMsg_ne (env : Env) (a id : String) (hne : id ≠ a) :
    List.count (Ev.markRead id) (processMsg env a) = 0 := by
  rw [List.count_eq_zero]
  intro hmem
  exact hne (processMsg_msgId env a (Ev.markRead id) hmem)

theorem pollGo_count_markRead (env : Env) :
    ∀ (l seen : List String) (id : String),
      List.count (Ev.markRead id) (pollGo env seen l).2 =
        if id ∉ seen ∧ id ∈ l then List.count (Ev.markRead id) (processMsg env id) else 0
  | [], seen, id => by
    rw [pollGo]
    simp
  | a :: rest, seen, id => by
    rw [pollGo]
    by_cases ha : a ∈ seen
    · rw [if_pos ha, pollGo_count_markRead env rest seen id]
      by_cases hia : id = a
      · subst hia
        simp [ha]
      · by_cases hs : id ∈ seen
        · simp [hs]
        · simp only [hs, not_false_iff, true_and]
          by_cases hr : id ∈ rest
          · simp [hr, List.mem_cons, hia]
          · simp [hr, List.mem_cons, hia]
    · rw [if_neg ha]
      simp only [List.count_cons, List.count_append,
        pollGo_count_markRead env rest (a :: seen) id]
      by_cases hia : id = a
      · subst hia
        have h1 : (Ev.markRead id == Ev.claim id) = false := by simp
        have h2 : (Ev.markRead id == Ev.fetch id) = false := by simp
        have h3 : id ∈ id :: seen := List.mem_cons_self id seen
        simp [h3, ha, List.mem_cons]
      · have h1 : (Ev.markRead id == Ev.claim a) = false := by simp [hia]
        have h2 : (Ev.markRead id == Ev.fetch a) = false := by simp [hia]
        rw [count_markRead_processMsg_ne env a id hia]
        have h4 : (id ∈ a :: seen) ↔ (id ∈ seen) := by
          simp [List.mem_cons, hia]
        have h5 : (id ∈ a :: rest) ↔ (id ∈ rest) := by
          simp [List.mem_cons, hia]
        simp [h1, h2, h4, h5]

theorem checkGo_fst_mono :
    ∀ (l seen : List String), seen ⊆ (checkGo seen l).1
  | [], seen => by rw [checkGo]; exact fun x hx => hx
  | id :: rest, seen => by
    rw [checkGo]
    by_cases h : id ∈ seen
    · rw [if_pos h]
      exact checkGo_fst_mono rest seen
    · rw [if_neg h]
      intro x hx
      exact checkGo_fst_mono rest (id :: seen) (List.mem_cons_of_mem _ hx)

theorem checkGo_trace :
    ∀ (l seen : List String) (e : Ev), e ∈ (checkGo seen l).2.2 →
      (∃ i, e = Ev.claim i) ∨ ∃ i, e = Ev.fetch i
  | [], seen, e, he => by rw [checkGo] at he; simp at he
  | a :: rest, seen, e, he => by
    rw [checkGo] at he
    by_cases ha : a ∈ seen
    · rw [if_pos ha] at he
      exact checkGo_trace rest seen e he
    · rw [if_neg ha] at he
      simp only [List.mem_cons] at he
      rcases he with rfl | rfl | he
      · exact Or.inl ⟨a, rfl⟩
      · exact Or.inr ⟨a, rfl⟩
      · exact checkGo_trace rest (a :: seen) e he

theorem checkGo_ret_seen :
    ∀ (l seen : List String) (id : String), id ∈ (checkGo seen l).2.1 →
      id ∈ (checkGo seen l).1
  | [], seen, id, hid => by rw [checkGo] at hid; simp at hid
  | a :: rest, seen, id, hid => by
    rw [checkGo] at hid ⊢
    by_cases ha : a ∈ seen
    · rw [if_pos ha] at hid ⊢
      exact checkGo_ret_seen rest seen id hid
    · rw [if_neg ha] at hid ⊢
      rcases List.mem_cons.mp hid with rfl | hid2
      · exact checkGo_fst_mono rest (id :: seen) (List.mem_cons_self id seen)
      · exact checkGo_ret_seen rest (a :: seen) id hid2

/-!
Claim theorems for the pipeline controller.
-/

/-- C4: a message id is claimed before any other call for it: the poll
trace decomposes as a first segment with no event for the id, then the
claim, the fetch and the per-message processing; and a second poll whose
unread list brings no new id produces an empty trace, in particular no
further reply attempt for a previously claimed id. -/
theorem claim_c4_claim_first_and_idempotent (env env2 : Env) (seen : List String)
    (id : String) :
    (id ∉ seen → id ∈ env.unread →
      ∃ pre post, (pollUnreadMessages env seen).2 =
          pre ++ (Ev.claim id :: Ev.fetch id :: processMsg env id) ++ post ∧
        ∀ e ∈ pre, e.msgId ≠ id) ∧
    ((∀ j ∈ env2.unread, j ∈ env.unread ∨ j ∈ seen) →
      (pollUnreadMessages env2 (pollUnreadMessages env seen).1).2 = []) := by
  constructor
  · intro h1 h2
    exact pollGo_decomp env env.unread seen id h1 h2
  · intro hsub
    unfold pollUnreadMessages
    have hall : ∀ j ∈ env2.unread, j ∈ (pollGo env seen env.unread).1 := by
      intro j hj
      rcases hsub j hj with hj2 | hj2
      · exact pollGo_fst_mem env env.unread seen j hj2
      · exact pollGo_fst_mono env env.unread seen hj2
    rw [pollGo_skip env2 env2.unread _ hall]

/-- C4 witness: concrete first and second poll over one unread id. -/
theorem claim_c4_witness :
    (∃ pre post, (pollUnreadMessages envSendFail []).2 =
        pre ++ (Ev.claim "m1" :: Ev.fetch "m1" :: processMsg envSendFail "m1") ++ post ∧
      ∀ e ∈ pre, e.msgId ≠ "m1") ∧
    (pollUnreadMessages envSendFail (pollUnreadMessages envSendFail []).1).2 = [] :=
  ⟨(claim_c4_claim_first_and_idempotent envSendFail envSendFail [] "m1").1
      (by decide) (by decide),
   (claim_c4_claim_first_and_idempotent envSendFail envSendFail [] "m1").2
      (by decide)⟩

/-- C5: when the reply transmission fails for a meeting-related message
(the send outcome is failure, caught inside composeAndSendEmail), the
controller still issues exactly one markRead call for that message in
the poll trace, and the failed send attempt is in the trace. -/
theorem claim_c5_reply_failure_still_marked (env : Env) (seen : List String)
    (id : String) (ctx : List Suggestion) (hin : id ∈ env.unread) (hnew : id ∉ seen)
    (hc : env.classify id = .ok true) (hctx : env.context id = .ok ctx)
    (hfrom : env.hasFrom id = true) (hsend : env.sendOk id = false) :
    List.count (Ev.markRead id) (pollUnreadMessages env seen).2 = 1 ∧
    Ev.sendAttempt id false ∈ (pollUnreadMessages env seen).2 := by
  have hpm : processMsg env id =
      [Ev.classify id, Ev.getSlots id [env.today], Ev.getContext id,
        Ev.sendAttempt id (env.sendOk id), Ev.markRead id] := by
    unfold processMsg
    rw [hc, hctx, if_pos hfrom]
    rfl
  constructor
  · unfold pollUnreadMessages
    rw [pollGo_count_markRead env env.unread seen id, if_pos ⟨hnew, hin⟩, hpm]
    simp [List.count_cons]
  · obtain ⟨pre, post, heq, -⟩ := pollGo_decomp env env.unread seen id hnew hin
    unfold pollUnreadMessages
    rw [heq, hpm, hsend]
    simp

/-- C5 witness: one unread meeting-related message whose send fails is
still marked read exactly once. -/
theorem claim_c5_witness :
    List.count (Ev.markRead "m1") (pollUnreadMessages envSendFail []).2 = 1 ∧
    Ev.sendAttempt "m1" false ∈ (pollUnreadMessages envSendFail []).2 :=
  claim_c5_reply_failure_still_marked envSendFail [] "m1"
    [⟨"2025-07-23", some "+08:00"⟩] (by decide) (by decide) rfl rfl rfl rfl

/-- C6: against the oracle context with two candidate dates, the current
draft of pollUnreadMessages queries the calendar with [today] only
(line 435 of gmail-monitor.ts, dates = [today]) and never with the two
candidate dates, while the third draft, the one exercised by the test
suite, queries with both candidate dates. -/
theorem claim_c6_date_selection :
    (Ev.getSlots "m1" ["2025-07-21"] ∈ (pollUnreadMessages envTwoDates []).2) ∧
    (Ev.getSlots "m1" ["2025-07-23", "2025-07-22"] ∉ (pollUnreadMessages envTwoDates []).2) ∧
    (Ev.getSlots "m1" ["2025-07-23", "2025-07-22"] ∈
      (pollUnreadMessagesThird envTwoDatesThird []).2) := by
  refine ⟨by decide, by decide, by decide⟩

/-- C7 counterexample: when the oracle output is unparseable for the one
unread message, the poll trace ends at the classification: the message
is not marked processed, contrary to the claim. -/
theorem claim_c7_counterexample :
    (pollUnreadMessages envGarbled []).2 =
      [Ev.claim "m1", Ev.fetch "m1", Ev.classify "m1"] ∧
    Ev.markRead "m1" ∉ (pollUnreadMessages envGarbled []).2 := by
  refine ⟨by decide, by decide⟩

/-- C7 amended: on unparseable oracle output the controller logs and
skips the message: it is never marked processed at the source, it stays
claimed in the seen set so it is not retried in this process, and the
poll continues with the remaining messages. -/
theorem claim_c7_skip_without_mark (env : Env) (seen : List String) (id : String)
    (rest : List String) (hu : env.unread = id :: rest) (hnew : id ∉ seen)
    (hc : env.classify id = .error ()) :
    (pollUnreadMessages env seen).2 =
      Ev.claim id :: Ev.fetch id :: Ev.classify id :: (pollGo env (id :: seen) rest).2 ∧
    Ev.markRead id ∉ (pollUnreadMessages env seen).2 ∧
    id ∈ (pollUnreadMessages env seen).1 := by
  have hpm : processMsg env id = [Ev.classify id] := by
    unfold processMsg
    rw [hc]
  have htr : (pollUnreadMessages env seen).2 =
      Ev.claim id :: Ev.fetch id :: Ev.classify id :: (pollGo env (id :: seen) rest).2 := by
    unfold pollUnreadMessages
    rw [hu, pollGo, if_neg hnew, hpm]
    simp
  refine ⟨htr, ?_, ?_⟩
  · rw [htr]
    intro hmem
    simp only [List.mem_cons] at hmem
    rcases hmem with h | h | h | h
    · cases h
    · cases h
    · cases h
    · exact (pollGo_trace_id env rest (id :: seen) _ h).2 (List.mem_cons_self id seen)
  · unfold pollUnreadMessages
    rw [hu, pollGo, if_neg hnew]
    exact pollGo_fst_mono env rest (id :: seen) (List.mem_cons_self id seen)

/-- C7 witness: concrete run of the amended statement. -/
theorem claim_c7_witness :
    (pollUnreadMessages envGarbled []).2 =
      Ev.claim "m1" :: Ev.fetch "m1" :: Ev.classify "m1" ::
        (pollGo envGarbled ["m1"] []).2 ∧
    Ev.markRead "m1" ∉ (pollUnreadMessages envGarbled []).2 ∧
    "m1" ∈ (pollUnreadMessages envGarbled []).1 :=
  claim_c7_skip_without_mark envGarbled [] "m1" [] rfl (by decide) rfl

/-- C10: checkForNewMessages shares the seen set with pollUnreadMessages
and only claims and fetches: its trace holds no classification, no
calendar query, no reply and no markRead; every returned id lands in the
seen set, and a later poll run from any seen set containing it produces
no event at all for that id, so it never receives a reply; polls only
grow the seen set, so this persists over all later polls. -/
theorem claim_c10_check_claims_forever_skipped (env : Env) (seen : List String) :
    (∀ e ∈ (checkForNewMessages env seen).2.2,
      (∃ i, e = Ev.claim i) ∨ ∃ i, e = Ev.fetch i) ∧
    (∀ id ∈ (checkForNewMessages env seen).2.1, id ∈ (checkForNewMessages env seen).1) ∧
    (∀ (env2 : Env) (seen2 : List String), (checkForNewMessages env seen).1 ⊆ seen2 →
      ∀ id ∈ (checkForNewMessages env seen).2.1,
        ∀ e ∈ (pollUnreadMessages env2 seen2).2, e.msgId ≠ id) ∧
    (∀ (env2 : Env) (seen2 : List String), seen2 ⊆ (pollUnreadMessages env2 seen2).1) := by
  refine ⟨checkGo_trace env.unread seen, checkGo_ret_seen env.unread seen, ?_, ?_⟩
  · intro env2 seen2 hsub id hid e he heq
    have h2 := (pollGo_trace_id env2 env2.unread seen2 e he).2
    rw [heq] at h2
    exact h2 (hsub (checkGo_ret_seen env.unread seen id hid))
  · intro env2 seen2
    exact pollGo_fst_mono env2 env2.unread seen2

/-- C10 witness: concrete checkForNewMessages then a later poll. -/
theorem claim_c10_witness :
    ((∃ i, Ev.claim "m1" = Ev.claim i) ∨ ∃ i, Ev.claim "m1" = Ev.fetch i) ∧
    "m1" ∈ (checkForNewMessages envSendFail []).1 ∧
    (Ev.claim "m2").msgId ≠ "m1" :=
  ⟨(claim_c10_check_claims_forever_skipped envSendFail []).1 (Ev.claim "m1") (by decide),
   (claim_c10_check_claims_forever_skipped envSendFail []).2.1 "m1" (by decide),
   (claim_c10_check_claims_forever_skipped envSendFail []).2.2.1 envOther ["m1"]
     (by decide) "m1" (by decide) (Ev.claim "m2") (by decide)⟩

end CalMcp


